import Mathlib

/-!
Shallow embedding of the `kernel_prelink` loader (src/mem.rs and
src/loader.rs) together with proofs settling the frozen claims about its
specification.  Machine integers (`usize`, ELF `u64` fields) are modelled
as `Nat`; theorems carry explicit no-overflow side conditions on the
additions where 64-bit wrap-around could otherwise occur.
-/

namespace KernelPrelink

/-! ## Address model (src/mem.rs) -/

def PAGE_SIZE : Nat := 4096

/-- `PAGE_SIZE.trailing_zeros()` for `PAGE_SIZE = 4096`. -/
def PAGE_SIZE_BITS : Nat := 12

def PA_WIDTH_SV39 : Nat := 56

def PPN_WIDTH_SV39 : Nat := PA_WIDTH_SV39 - PAGE_SIZE_BITS

structure PhysAddr where
  val : Nat
deriving DecidableEq

structure VirtAddr where
  val : Nat
deriving DecidableEq

structure PhysPageNum where
  val : Nat
deriving DecidableEq

structure VirtPageNum where
  val : Nat
deriving DecidableEq

/-- `impl From<usize> for PhysAddr`: `Self(v & ((1 << PA_WIDTH_SV39) - 1))`. -/
def PhysAddr.fromUsize (v : Nat) : PhysAddr :=
  ⟨v &&& ((1 <<< PA_WIDTH_SV39) - 1)⟩

/-- `impl From<usize> for VirtAddr`: the source masks with `PA_WIDTH_SV39`
(56 bits), not a 39-bit virtual width. -/
def VirtAddr.fromUsize (v : Nat) : VirtAddr :=
  ⟨v &&& ((1 <<< PA_WIDTH_SV39) - 1)⟩

/-- `impl From<usize> for PhysPageNum`. -/
def PhysPageNum.fromUsize (v : Nat) : PhysPageNum :=
  ⟨v &&& ((1 <<< PPN_WIDTH_SV39) - 1)⟩

/-- `impl From<usize> for VirtPageNum`: the source masks with
`PPN_WIDTH_SV39` (44 bits). -/
def VirtPageNum.fromUsize (v : Nat) : VirtPageNum :=
  ⟨v &&& ((1 <<< PPN_WIDTH_SV39) - 1)⟩

def PhysAddr.page_offset (a : PhysAddr) : Nat := a.val &&& (PAGE_SIZE - 1)

def PhysAddr.floor (a : PhysAddr) : PhysPageNum := ⟨a.val / PAGE_SIZE⟩

def PhysAddr.ceil (a : PhysAddr) : PhysPageNum :=
  ⟨(a.val + PAGE_SIZE - 1) / PAGE_SIZE⟩

def VirtAddr.page_offset (a : VirtAddr) : Nat := a.val &&& (PAGE_SIZE - 1)

def VirtAddr.floor (a : VirtAddr) : VirtPageNum := ⟨a.val / PAGE_SIZE⟩

def VirtAddr.ceil (a : VirtAddr) : VirtPageNum :=
  ⟨(a.val + PAGE_SIZE - 1) / PAGE_SIZE⟩

/-- `impl From<PhysPageNum> for PhysAddr`: `Self(v.0 << PAGE_SIZE_BITS)`. -/
def PhysPageNum.toPhysAddr (v : PhysPageNum) : PhysAddr :=
  ⟨v.val <<< PAGE_SIZE_BITS⟩

/-- `impl From<VirtPageNum> for VirtAddr`: `Self(v.0 << PAGE_SIZE_BITS)`. -/
def VirtPageNum.toVirtAddr (v : VirtPageNum) : VirtAddr :=
  ⟨v.val <<< PAGE_SIZE_BITS⟩

/-- `VirtPageNum::indexes`: the loop
`for i in (0..3).rev() { idx[i] = vpn & 511; vpn >>= 9 }` unrolled. -/
def VirtPageNum.indexes (v : VirtPageNum) : List Nat :=
  let vpn0 := v.val
  let idx2 := vpn0 &&& 511
  let vpn1 := vpn0 >>> 9
  let idx1 := vpn1 &&& 511
  let vpn2 := vpn1 >>> 9
  let idx0 := vpn2 &&& 511
  [idx0, idx1, idx2]

def VirtPageNum.number (v : VirtPageNum) : Nat := v.val

/-! ## Loader (src/loader.rs) -/

/-- `SectionHeaderFlags::SHF_WRITE`. -/
def SHF_WRITE : Nat := 1

/-- `SectionHeaderFlags::SHF_ALLOC`. -/
def SHF_ALLOC : Nat := 2

/-- `SectionHeaderFlags::SHF_EXECINSTR`. -/
def SHF_EXECINSTR : Nat := 4

/-- `SectionType::SHT_NOBITS` (numeric value in the ELF format). -/
def SHT_NOBITS : Nat := 8

/-- Bitflags `contains`: all bits of `bit` are set in `flags`. -/
def shfContains (flags bit : Nat) : Bool := flags &&& bit == bit

/-- One ELF section header as extracted by the external parser
(`elf_rs`): name bytes, flags word, section type, and the `addr`,
`offset`, `size` fields used by the loader. -/
structure SectionHeader where
  name : List Nat
  flags : Nat
  shType : Nat
  addr : Nat
  offset : Nat
  size : Nat
deriving DecidableEq

/-- `struct Perm { r, w, x }`. -/
structure Perm where
  r : Bool
  w : Bool
  x : Bool
deriving DecidableEq

/-- Modelled from the spec: the symbol record half of the
`(symbol-record, name-bytes)` pair produced by the Dynamic view's symbol
resolution (the missing `src/elf.rs`).  The loader never inspects it. -/
structure Sym

/-- Modelled from the spec: one explicit-addend (RELA) relocation entry of
the missing `src/elf.rs`, carrying an offset, an info word whose high
32 bits are the symbol index, and an explicit addend. -/
structure RelaEntry where
  offset : Nat
  info : Nat
  addend : Nat
deriving DecidableEq

/-- Modelled from the spec: one implicit-addend (REL) relocation entry of
the missing `src/elf.rs`.  The loader's REL path is `todo!()`. -/
structure RelEntry where
  offset : Nat
  info : Nat
deriving DecidableEq

/-- Modelled from the spec: the relocation table of the Dynamic view,
tagged as explicit-addend (RELA) or implicit-addend (REL). -/
inductive RelTable where
  | RELA (tbl : List RelaEntry)
  | REL (tbl : List RelEntry)

/-- Modelled from the spec: the parsed, read-only Dynamic view of an ELF
`.dynamic` section (the missing `src/elf.rs`): an optional relocation
table and a means to resolve a symbol-table index to its
`(symbol-record, name-bytes)` pair. -/
structure Dynamic where
  rel : Option RelTable
  resolveSym : Nat → Sym × List Nat

/-- `struct VDSOConfig`: physical range `[start, end)`, destination
virtual address `target`, and the symbol lookup table. -/
structure VDSOConfig where
  start : Nat
  «end» : Nat
  target : Nat
  lookup : List Nat → Option Nat

/-- `struct StackConfig`: virtual range `[start, end)` of the stack. -/
structure StackConfig where
  start : Nat
  «end» : Nat
deriving DecidableEq

/-- `struct Loader { entry }`. -/
structure Loader where
  entry : Nat
deriving DecidableEq

/-- One call the loader issues against the `MMU` trait (or the single raw
GOT write): this trace of calls is the loader's observable effect. -/
inductive Event where
  | alloc (idx : Nat)
  | map (idx : Nat) (vpn : Nat) (perm : Perm)
  | mapExisting (ppn : Nat) (vpn : Nat) (perm : Perm)
  | write (paddr : Nat) (value : Nat)
deriving DecidableEq

def Event.isAlloc : Event → Bool
  | .alloc _ => true
  | _ => false

def Event.isMapExisting : Event → Bool
  | .mapExisting _ _ _ => true
  | _ => false

def Event.isWrite : Event → Bool
  | .write _ _ => true
  | _ => false

/-- The allocated-page index a `map` event consumes, if any. -/
def Event.mappedPage : Event → Option Nat
  | .map idx _ _ => some idx
  | _ => none

/-- The byte string `b".dynamic"`. -/
def dotDynamic : List Nat := [46, 100, 121, 110, 97, 109, 105, 99]

/-- The `for vpn in virt_start..virt_end { let page = mmu.alloc();
mmu.map(page, vpn, perm) }` loop: the `i`-th iteration allocates page
number `ctr + i` (the MMU hands out fresh pages in allocation order) and
maps it at `vstart + i`. -/
def allocRange (ctr vstart vend : Nat) (perm : Perm) : List Event :=
  (List.range (vend - vstart)).flatMap
    (fun i => [Event.alloc (ctr + i), Event.map (ctr + i) (vstart + i) perm])

/-- Phase-1 body for a single section (src/loader.rs lines 93-122), minus
the `.dynamic` capture: `none` models a panic (failed
`assert!(size > 0)` or an out-of-range `&buf[offset..offset+size]`
slice); otherwise the emitted MMU calls and the new allocation counter.
The sliced section content is bound but never consumed by the source
(`// TODO: copy pages`). -/
def loadSection (buf : List Nat) (s : SectionHeader) (ctr : Nat) :
    Option (List Event × Nat) :=
  if shfContains s.flags SHF_ALLOC = false then some ([], ctr)
  else if s.size = 0 then none
  else if s.shType ≠ SHT_NOBITS ∧ buf.length < s.offset + s.size then none
  else
    let vstart := (VirtAddr.mk s.addr).floor.number
    let vend := (VirtAddr.mk (s.addr + s.size)).ceil.number
    let perm : Perm :=
      ⟨true, shfContains s.flags SHF_WRITE, shfContains s.flags SHF_EXECINSTR⟩
    some (allocRange ctr vstart vend perm, ctr + (vend - vstart))

/-- Result of the section-scanning loop: captured Dynamic view,
allocation counter, emitted MMU calls, and whether the loop completed
without a panic. -/
structure Phase1Out where
  dyn : Option Dynamic
  ctr : Nat
  events : List Event
  ok : Bool

/-- The section loop of `Loader::load` (src/loader.rs lines 88-123).
`pd` is `Dynamic::parse` of the missing `src/elf.rs`, taken as an
abstract parameter (modelled from the spec, which fixes only its result
shape); it is applied to the buffer and the byte range
`offset .. offset + size` exactly as the source does. -/
def phase1 (buf : List Nat) (pd : List Nat → Nat → Nat → Dynamic) :
    List SectionHeader → Option Dynamic → Nat → Phase1Out
  | [], dyn, ctr => ⟨dyn, ctr, [], true⟩
  | s :: rest, dyn, ctr =>
    let dyn' := if List.isPrefixOf dotDynamic s.name
      then some (pd buf s.offset (s.offset + s.size)) else dyn
    match loadSection buf s ctr with
    | none => ⟨dyn', ctr, [], false⟩
    | some (evs, ctr') =>
      let out := phase1 buf pd rest dyn' ctr'
      ⟨out.dyn, out.ctr, evs ++ out.events, out.ok⟩

/-- The VDSO-splicing loop (src/loader.rs lines 126-141): `for ppn in
text_vdso_start_ppn .. text_vdso_end_ppn` maps each existing physical
page to `text_vdso_start_vpn + (ppn - text_vdso_start_ppn)` with
permission `{r: true, w: false, x: true}`. -/
def spliceEvents (config : VDSOConfig) : List Event :=
  let pstart := (PhysAddr.mk config.start).floor.val
  let pend := (PhysAddr.mk config.«end»).ceil.val
  let vstart := (VirtAddr.mk config.target).floor.val
  (List.range' pstart (pend - pstart)).map
    (fun ppn => Event.mapExisting ppn (vstart + (ppn - pstart)) ⟨true, false, true⟩)

/-- Processing of one RELA entry (src/loader.rs lines 147-156): resolve
the symbol name from the high 32 bits of `info`, consult the lookup; on a
hit, write `config.target + (at - config.start)` at the physical address
`mmu.translate(ent.offset)` (whose `unwrap` panics — `none` — if the
translation fails); on a miss, do nothing. -/
def processRelaEntry (config : VDSOConfig) (d : Dynamic)
    (tr : Nat → Option Nat) (ent : RelaEntry) : Option (List Event) :=
  let name := (d.resolveSym (ent.info >>> 32)).2
  match config.lookup name with
  | some atP =>
    match tr ent.offset with
    | some gotPaddr =>
      some [Event.write gotPaddr (config.target + (atP - config.start))]
    | none => none
  | none => some []

/-- The `for ent in *tbl` relocation loop over a RELA table. -/
def relocList (config : VDSOConfig) (d : Dynamic) (tr : Nat → Option Nat) :
    List RelaEntry → Option (List Event)
  | [] => some []
  | e :: rest =>
    match processRelaEntry config d tr e with
    | none => none
    | some evs => (relocList config d tr rest).map (fun l => evs ++ l)

/-- Relocation fixups (src/loader.rs lines 143-162): nothing without a
captured Dynamic view or without a relocation table; the RELA loop over
its entries; `todo!()` (a panic, `none`) on a REL table. -/
def relocEvents (config : VDSOConfig) (dyn : Option Dynamic)
    (tr : Nat → Option Nat) : Option (List Event) :=
  match dyn with
  | none => some []
  | some d =>
    match d.rel with
    | none => some []
    | some (RelTable.RELA tbl) => relocList config d tr tbl
    | some (RelTable.REL _) => none

/-- `Loader::load` (src/loader.rs lines 82-188).  The external
collaborators appear as arguments: `secs`/`entryPoint` are what the
`elf_rs` parser extracts from `buf`, `pd` is `Dynamic::parse`, and `tr`
is the MMU's `translate`.  Returns the constructed `Loader` (`none`
models a panic) together with the trace of MMU calls and raw writes the
load issued up to completion or panic. -/
def Loader.load (buf : List Nat) (secs : List SectionHeader)
    (entryPoint : Nat) (pd : List Nat → Nat → Nat → Dynamic)
    (tr : Nat → Option Nat) (ldso : Option VDSOConfig)
    (stack : StackConfig) : Option Loader × List Event :=
  let p1 := phase1 buf pd secs none 0
  if p1.ok = false then (none, p1.events)
  else
    let stackEvs := allocRange p1.ctr ((VirtAddr.mk stack.start).floor.number)
      ((VirtAddr.mk stack.«end»).ceil.number) ⟨true, true, false⟩
    match ldso with
    | none => (some ⟨entryPoint⟩, p1.events ++ stackEvs)
    | some config =>
      match relocEvents config p1.dyn tr with
      | none => (none, p1.events ++ spliceEvents config)
      | some re =>
        (some ⟨entryPoint⟩, p1.events ++ spliceEvents config ++ re ++ stackEvs)

/-! ## Claim-side renditions, for comparison with the source embedding -/

/-- Virtual pages spanned by one section: `ceil(addr+size) - floor(addr)`. -/
def sectionPages (s : SectionHeader) : Nat :=
  (VirtAddr.mk (s.addr + s.size)).ceil.val - (VirtAddr.mk s.addr).floor.val

/-- Total pages of the sections flagged as occupying memory at run time. -/
def pageCount : List SectionHeader → Nat
  | [] => 0
  | s :: rest =>
    (if shfContains s.flags SHF_ALLOC then sectionPages s else 0) + pageCount rest

/-- Claim C4, rendered as a definition: for every section flagged as
occupying memory at run time, one fresh physical page is allocated and
one map call is issued for each virtual page number in exactly the range
`[floor(addr), ceil(addr+size))`, with permission `r = true`, `w` iff the
section's write flag is set, `x` iff its execute flag is set; sections
without the flag contribute nothing. -/
def claimSectionEvents : List SectionHeader → Nat → List Event
  | [], _ => []
  | s :: rest, fresh =>
    if shfContains s.flags SHF_ALLOC then
      let lo := (VirtAddr.mk s.addr).floor.val
      let hi := (VirtAddr.mk (s.addr + s.size)).ceil.val
      ((List.range (hi - lo)).flatMap (fun i =>
        [Event.alloc (fresh + i),
         Event.map (fresh + i) (lo + i)
           ⟨true, shfContains s.flags SHF_WRITE, shfContains s.flags SHF_EXECINSTR⟩]))
        ++ claimSectionEvents rest (fresh + (hi - lo))
    else claimSectionEvents rest fresh

/-- A Dynamic view with no relocation table, for concrete instances. -/
def trivialDynamic : Dynamic := ⟨none, fun _ => (⟨⟩, [])⟩

/-- A parse function returning the trivial view, for concrete instances. -/
def trivialParse : List Nat → Nat → Nat → Dynamic := fun _ _ _ => trivialDynamic

/-- A translation with nothing mapped, for concrete instances. -/
def noTranslate : Nat → Option Nat := fun _ => none

/-- Concrete VDSO configuration resolving every symbol to `start + 0x40`,
for concrete instances. -/
def vdsoWitness : VDSOConfig := ⟨0x80000, 0x82000, 0x10000, fun _ => some 0x80040⟩

/-- Concrete Dynamic view with a one-entry RELA table, for concrete
instances. -/
def dynWitness : Dynamic :=
  ⟨some (RelTable.RELA [⟨0x3000, 5 <<< 32, 0⟩]), fun _ => (⟨⟩, [103])⟩

/-- Concrete parse function returning `dynWitness`. -/
def parseWitness : List Nat → Nat → Nat → Dynamic := fun _ _ _ => dynWitness

/-- Concrete translation mapping everything to `0x9000`. -/
def translateWitness : Nat → Option Nat := fun _ => some 0x9000

/-- Concrete VDSO configuration whose lookup resolves nothing. -/
def vdsoNoLookup : VDSOConfig := ⟨0x80000, 0x82000, 0x10000, fun _ => none⟩

/-- Concrete Dynamic view with a one-entry RELA table whose symbol the
no-lookup configuration leaves unresolved. -/
def dynW8 : Dynamic :=
  ⟨some (RelTable.RELA [⟨0x3000, 0, 0⟩]), fun _ => (⟨⟩, [120])⟩

/-- Concrete parse function returning `dynW8`. -/
def parseW8 : List Nat → Nat → Nat → Dynamic := fun _ _ _ => dynW8

/-! ## Claims -/

/-- C2: the claim says `From<usize> for VirtAddr` truncates to the 39-bit
virtual width, i.e. stores `v mod 2^39`.  The source masks with
`PA_WIDTH_SV39 = 56` instead, so at `v = 2^39` the stored offset is
`2^39`, not `2^39 mod 2^39 = 0`: the claim fails on the code. -/
theorem spec_c2_virt_truncation :
    (VirtAddr.fromUsize (2 ^ 39)).val ≠ 2 ^ 39 % 2 ^ 39 ∧
    (VirtAddr.fromUsize (2 ^ 39)).val = 2 ^ 39 ∧
    (PhysAddr.fromUsize (2 ^ 56 + 5)).val = 5 := by decide

/-- C6: for any byte address `a` (within the usize domain where the
`+ PAGE_SIZE - 1` in `ceil` cannot wrap), `floor(a)` converted back to a
byte address is `≤ a`, `a ≤ ceil(a)` converted back, both bounds are
page-aligned, and `ceil` exceeds `floor` by one exactly when `a` is not a
multiple of the 4096-byte page size — for `PhysAddr` and `VirtAddr`
alike. -/
theorem spec_c6_floor_ceil_bounds (a : Nat) (h : a + PAGE_SIZE ≤ 2 ^ 64) :
    ((PhysAddr.mk a).floor.toPhysAddr.val ≤ a ∧
      a ≤ (PhysAddr.mk a).ceil.toPhysAddr.val ∧
      PAGE_SIZE ∣ (PhysAddr.mk a).floor.toPhysAddr.val ∧
      PAGE_SIZE ∣ (PhysAddr.mk a).ceil.toPhysAddr.val ∧
      ((PhysAddr.mk a).ceil.val = (PhysAddr.mk a).floor.val +
        if a % PAGE_SIZE = 0 then 0 else 1)) ∧
    ((VirtAddr.mk a).floor.toVirtAddr.val ≤ a ∧
      a ≤ (VirtAddr.mk a).ceil.toVirtAddr.val ∧
      PAGE_SIZE ∣ (VirtAddr.mk a).floor.toVirtAddr.val ∧
      PAGE_SIZE ∣ (VirtAddr.mk a).ceil.toVirtAddr.val ∧
      ((VirtAddr.mk a).ceil.val = (VirtAddr.mk a).floor.val +
        if a % PAGE_SIZE = 0 then 0 else 1)) := by
  simp only [PhysAddr.floor, PhysAddr.ceil, VirtAddr.floor, VirtAddr.ceil,
    PhysPageNum.toPhysAddr, VirtPageNum.toVirtAddr, PAGE_SIZE, PAGE_SIZE_BITS,
    Nat.shiftLeft_eq]
  norm_num <;>
    first
      | omega
      | (split <;> omega)

/-- C6 witness: the bounds instantiated at the misaligned address 4097. -/
theorem spec_c6_floor_ceil_bounds_witness :
    4097 + PAGE_SIZE ≤ 2 ^ 64 ∧
    (((PhysAddr.mk 4097).floor.toPhysAddr.val ≤ 4097 ∧
      4097 ≤ (PhysAddr.mk 4097).ceil.toPhysAddr.val ∧
      PAGE_SIZE ∣ (PhysAddr.mk 4097).floor.toPhysAddr.val ∧
      PAGE_SIZE ∣ (PhysAddr.mk 4097).ceil.toPhysAddr.val ∧
      ((PhysAddr.mk 4097).ceil.val = (PhysAddr.mk 4097).floor.val +
        if 4097 % PAGE_SIZE = 0 then 0 else 1)) ∧
    ((VirtAddr.mk 4097).floor.toVirtAddr.val ≤ 4097 ∧
      4097 ≤ (VirtAddr.mk 4097).ceil.toVirtAddr.val ∧
      PAGE_SIZE ∣ (VirtAddr.mk 4097).floor.toVirtAddr.val ∧
      PAGE_SIZE ∣ (VirtAddr.mk 4097).ceil.toVirtAddr.val ∧
      ((VirtAddr.mk 4097).ceil.val = (VirtAddr.mk 4097).floor.val +
        if 4097 % PAGE_SIZE = 0 then 0 else 1))) :=
  ⟨by decide, spec_c6_floor_ceil_bounds 4097 (by decide)⟩

/-- C7: for every in-range `VirtPageNum` (below `2^27`), concatenating
the three 9-bit fields of `indexes()`, element 0 most significant,
reconstructs the page number. -/
theorem spec_c7_indexes_roundtrip (v : VirtPageNum) (h : v.val < 2 ^ 27) :
    (v.indexes.getD 0 0) * 2 ^ 18 + (v.indexes.getD 1 0) * 2 ^ 9 +
      v.indexes.getD 2 0 = v.val := by
  have e1 : ∀ x : Nat, x &&& 511 = x % 512 := fun x =>
    Nat.and_pow_two_sub_one_eq_mod x 9
  have e2 : ∀ x : Nat, x >>> 9 = x / 512 := fun x =>
    Nat.shiftRight_eq_div_pow x 9
  simp only [VirtPageNum.indexes, e1, e2, List.getD_cons_zero,
    List.getD_cons_succ]
  norm_num
  omega

/-- C7 witness: the round trip instantiated at page number 19088743. -/
theorem spec_c7_indexes_roundtrip_witness :
    (VirtPageNum.mk 19088743).val < 2 ^ 27 ∧
    ((VirtPageNum.mk 19088743).indexes.getD 0 0) * 2 ^ 18 +
      ((VirtPageNum.mk 19088743).indexes.getD 1 0) * 2 ^ 9 +
      (VirtPageNum.mk 19088743).indexes.getD 2 0 =
      (VirtPageNum.mk 19088743).val :=
  ⟨by decide, spec_c7_indexes_roundtrip ⟨19088743⟩ (by decide)⟩

/-- Helper: the section loop's completion flag is `false` whenever some
section flagged as occupying memory has zero size (the `assert!` fires
there, or an earlier section already panicked). -/
theorem phase1_ok_false_of_zero_size (buf : List Nat)
    (pd : List Nat → Nat → Nat → Dynamic) :
    ∀ (secs : List SectionHeader) (dyn : Option Dynamic) (ctr : Nat)
      (s : SectionHeader), s ∈ secs → shfContains s.flags SHF_ALLOC = true →
      s.size = 0 → (phase1 buf pd secs dyn ctr).ok = false
  | [], _, _, s, hs, _, _ => absurd hs (List.not_mem_nil s)
  | t :: rest, dyn, ctr, s, hs, ha, hz => by
    rcases List.mem_cons.mp hs with h | h
    · subst h
      simp [phase1, loadSection, ha, hz]
    · cases hls : loadSection buf t ctr with
      | none => simp [phase1, hls]
      | some p =>
        obtain ⟨evs, ctr2⟩ := p
        simp only [phase1, hls]
        exact phase1_ok_false_of_zero_size buf pd rest _ _ s h ha hz

/-- C9: a section flagged as occupying memory at run time with zero size
trips the `assert!(size > 0)`: processing that section aborts before any
allocation or mapping for it (`loadSection` is `none`), and `load` never
returns a `Loader` value for the image. -/
theorem spec_c9_zero_size_fatal (buf : List Nat) (secs : List SectionHeader)
    (ep : Nat) (pd : List Nat → Nat → Nat → Dynamic) (tr : Nat → Option Nat)
    (ldso : Option VDSOConfig) (stack : StackConfig) (s : SectionHeader)
    (hmem : s ∈ secs) (halloc : shfContains s.flags SHF_ALLOC = true)
    (hz : s.size = 0) :
    (∀ ctr, loadSection buf s ctr = none) ∧
    (Loader.load buf secs ep pd tr ldso stack).1 = none := by
  constructor
  · intro ctr
    simp [loadSection, halloc, hz]
  · have h := phase1_ok_false_of_zero_size buf pd secs none 0 s hmem halloc hz
    simp [Loader.load, h]

/-- C9 witness: a single allocated, zero-sized section makes the load
abort with no mapping. -/
theorem spec_c9_zero_size_fatal_witness :
    (⟨[], 2, 8, 0, 0, 0⟩ : SectionHeader) ∈
      [(⟨[], 2, 8, 0, 0, 0⟩ : SectionHeader)] ∧
    shfContains (2 : Nat) SHF_ALLOC = true ∧
    (⟨[], 2, 8, 0, 0, 0⟩ : SectionHeader).size = 0 ∧
    ((∀ ctr, loadSection [] ⟨[], 2, 8, 0, 0, 0⟩ ctr = none) ∧
      (Loader.load [] [⟨[], 2, 8, 0, 0, 0⟩] 0 trivialParse noTranslate none
        ⟨0, 0⟩).1 = none) :=
  ⟨by decide, by decide, by decide,
    spec_c9_zero_size_fatal [] [⟨[], 2, 8, 0, 0, 0⟩] 0 trivialParse
      noTranslate none ⟨0, 0⟩ ⟨[], 2, 8, 0, 0, 0⟩ (by decide) (by decide)
      (by decide)⟩

/-- C1: the claim says `Loader::load` copies each allocated non-NOBITS
section's on-disk bytes `buf[offset .. offset+size]` into the backing
storage of the pages it maps.  The source never does (the loop body reads
the slice but carries a `// TODO: copy pages`): on an image with one
allocated PROGBITS section the whole trace is a bare allocate-and-map with
no write of the section's 16 content bytes anywhere. -/
theorem spec_c1_missing_copy :
    (Loader.load (List.range 16) [⟨[46, 116, 101, 120, 116], 6, 1, 4096, 0, 16⟩]
        0 trivialParse noTranslate none ⟨0, 0⟩).2 =
      [Event.alloc 0, Event.map 0 1 ⟨true, false, true⟩] ∧
    ((Loader.load (List.range 16)
        [⟨[46, 116, 101, 120, 116], 6, 1, 4096, 0, 16⟩]
        0 trivialParse noTranslate none ⟨0, 0⟩).2.filter Event.isWrite) = [] := by
  decide

/-- Helper: when the section loop completes, the captured Dynamic view is
the parse of the last section (in iteration order) whose name has the
`.dynamic` byte prefix, falling back to the initial value. -/
theorem phase1_dyn_last (buf : List Nat) (pd : List Nat → Nat → Nat → Dynamic) :
    ∀ (secs : List SectionHeader) (dyn0 : Option Dynamic) (ctr : Nat),
      (phase1 buf pd secs dyn0 ctr).ok = true →
      (phase1 buf pd secs dyn0 ctr).dyn =
        ((secs.filter (fun s => List.isPrefixOf dotDynamic s.name)).getLast?).elim
          dyn0 (fun s => some (pd buf s.offset (s.offset + s.size)))
  | [], dyn0, ctr, _ => by simp [phase1]
  | s :: rest, dyn0, ctr, hok => by
    cases hls : loadSection buf s ctr with
    | none => simp [phase1, hls] at hok
    | some p =>
      obtain ⟨evs, c2⟩ := p
      have hok2 : (phase1 buf pd rest (if List.isPrefixOf dotDynamic s.name
          then some (pd buf s.offset (s.offset + s.size)) else dyn0) c2).ok = true := by
        simpa [phase1, hls] using hok
      cases hp : List.isPrefixOf dotDynamic s.name with
      | true =>
        have ih := phase1_dyn_last buf pd rest
          (some (pd buf s.offset (s.offset + s.size))) c2 (by simpa [hp] using hok2)
        have key : (phase1 buf pd (s :: rest) dyn0 ctr).dyn =
            (phase1 buf pd rest (some (pd buf s.offset (s.offset + s.size))) c2).dyn := by
          simp [phase1, hls, hp]
        rw [key, @List.filter_cons_of_pos SectionHeader (fun s => List.isPrefixOf dotDynamic s.name) s rest hp]
        cases hfr : rest.filter (fun s => List.isPrefixOf dotDynamic s.name) with
        | nil =>
          rw [hfr] at ih
          exact ih
        | cons b l =>
          rw [hfr] at ih
          rw [List.getLast?_cons_cons]
          obtain ⟨t, ht⟩ := Option.isSome_iff_exists.mp
            (List.getLast?_isSome.mpr (List.cons_ne_nil b l))
          rw [ht] at ih ⊢
          exact ih
      | false =>
        have ih := phase1_dyn_last buf pd rest dyn0 c2 (by simpa [hp] using hok2)
        have key : (phase1 buf pd (s :: rest) dyn0 ctr).dyn =
            (phase1 buf pd rest dyn0 c2).dyn := by
          simp [phase1, hls, hp]
        rw [key, @List.filter_cons_of_neg SectionHeader (fun s => List.isPrefixOf dotDynamic s.name) s rest (by simp [hp])]
        exact ih

/-- C10: the Dynamic view is located by section-name prefix match on the
bytes `.dynamic`, independently of the section's flags, and when several
sections match, the view parsed from the last one in section-header
iteration order is the one the loader keeps for relocation processing. -/
theorem spec_c10_dynamic_prefix_last (buf : List Nat)
    (pd : List Nat → Nat → Nat → Dynamic) (secs : List SectionHeader)
    (hok : (phase1 buf pd secs none 0).ok = true) :
    (phase1 buf pd secs none 0).dyn =
      ((secs.filter (fun s => List.isPrefixOf dotDynamic s.name)).getLast?).map
        (fun s => pd buf s.offset (s.offset + s.size)) := by
  have h := phase1_dyn_last buf pd secs none 0 hok
  rw [h]
  cases (secs.filter (fun s => List.isPrefixOf dotDynamic s.name)).getLast? <;> rfl

/-- C10 witness: a non-matching section, a `.dynamic` section and a
`.dynamicfoo` section (all without the alloc flag); the captured view is
the parse of the last, `.dynamicfoo`-named one. -/
theorem spec_c10_dynamic_prefix_last_witness :
    (phase1 [] (fun (_ : List Nat) (o e : Nat) => (⟨none, fun _ => (⟨⟩, [o, e])⟩ : Dynamic))
      [⟨[46, 116, 101, 120, 116], 0, 8, 0, 0, 0⟩, ⟨dotDynamic, 0, 8, 0, 8, 4⟩,
        ⟨dotDynamic ++ [102, 111, 111], 0, 8, 0, 32, 8⟩] none 0).ok = true ∧
    (phase1 [] (fun (_ : List Nat) (o e : Nat) => (⟨none, fun _ => (⟨⟩, [o, e])⟩ : Dynamic))
      [⟨[46, 116, 101, 120, 116], 0, 8, 0, 0, 0⟩, ⟨dotDynamic, 0, 8, 0, 8, 4⟩,
        ⟨dotDynamic ++ [102, 111, 111], 0, 8, 0, 32, 8⟩] none 0).dyn =
      ((([⟨[46, 116, 101, 120, 116], 0, 8, 0, 0, 0⟩, ⟨dotDynamic, 0, 8, 0, 8, 4⟩,
          ⟨dotDynamic ++ [102, 111, 111], 0, 8, 0, 32, 8⟩] :
            List SectionHeader).filter
          (fun s => List.isPrefixOf dotDynamic s.name)).getLast?).map
        (fun s => (fun (_ : List Nat) (o e : Nat) => (⟨none, fun _ => (⟨⟩, [o, e])⟩ : Dynamic)) []
          s.offset (s.offset + s.size)) :=
  ⟨by decide,
    spec_c10_dynamic_prefix_last []
      (fun (_ : List Nat) (o e : Nat) => (⟨none, fun _ => (⟨⟩, [o, e])⟩ : Dynamic))
      [⟨[46, 116, 101, 120, 116], 0, 8, 0, 0, 0⟩, ⟨dotDynamic, 0, 8, 0, 8, 4⟩,
        ⟨dotDynamic ++ [102, 111, 111], 0, 8, 0, 32, 8⟩] (by decide)⟩

/-- Helper: projecting the consumed allocated-page indices out of one
section's alloc/map block yields the consecutive counters. -/
theorem filterMap_mapped_block (c lo : Nat) (p : Perm) :
    ∀ l : List Nat,
      (l.flatMap (fun i =>
        [Event.alloc (c + i), Event.map (c + i) (lo + i) p])).filterMap
          Event.mappedPage = l.map (fun i => c + i)
  | [] => rfl
  | i :: t => by
    simp only [List.flatMap_cons, List.filterMap_append, List.map_cons,
      List.filterMap_cons, Event.mappedPage]
    rw [filterMap_mapped_block c lo p t]
    rfl

/-- Helper: the allocated-page indices consumed by the claim-side event
list are exactly the `pageCount` consecutive naturals from `c`. -/
theorem claim_filterMap_pages :
    ∀ (secs : List SectionHeader) (c : Nat),
      (claimSectionEvents secs c).filterMap Event.mappedPage =
        List.range' c (pageCount secs)
  | [], _ => rfl
  | s :: rest, c => by
    by_cases ha : shfContains s.flags SHF_ALLOC = true
    · simp only [claimSectionEvents, pageCount, sectionPages, ha, if_true]
      rw [List.filterMap_append, filterMap_mapped_block,
        claim_filterMap_pages rest, ← List.range'_eq_map_range,
        List.range'_append_1, Nat.add_comm]
    · have ha' : shfContains s.flags SHF_ALLOC = false := by simpa using ha
      simp only [claimSectionEvents, pageCount, ha', Bool.false_eq_true,
        if_false, Nat.zero_add]
      exact claim_filterMap_pages rest c

/-- Helper: on a well-formed image (every allocated section nonempty and,
when it carries bits, inside the buffer) the section loop completes and
its MMU-call trace is exactly the claim-side rendition. -/
theorem phase1_events_of_wf (buf : List Nat)
    (pd : List Nat → Nat → Nat → Dynamic) :
    ∀ (secs : List SectionHeader) (dyn : Option Dynamic) (ctr : Nat),
      (∀ s ∈ secs, shfContains s.flags SHF_ALLOC = true →
        0 < s.size ∧ (s.shType ≠ SHT_NOBITS → s.offset + s.size ≤ buf.length)) →
      (phase1 buf pd secs dyn ctr).ok = true ∧
      (phase1 buf pd secs dyn ctr).events = claimSectionEvents secs ctr
  | [], _, _, _ => ⟨rfl, rfl⟩
  | s :: rest, dyn, ctr, h => by
    have hrest := fun t ht => h t (List.mem_cons_of_mem s ht)
    by_cases ha : shfContains s.flags SHF_ALLOC = true
    · obtain ⟨hsz, hsl⟩ := h s (List.mem_cons_self s rest) ha
      have h3 : ¬(s.shType ≠ SHT_NOBITS ∧ buf.length < s.offset + s.size) := by
        rintro ⟨hnb, hlt⟩
        exact absurd (hsl hnb) (Nat.not_le.mpr hlt)
      have hls : loadSection buf s ctr = some
        (allocRange ctr ((VirtAddr.mk s.addr).floor.number)
          ((VirtAddr.mk (s.addr + s.size)).ceil.number)
          ⟨true, shfContains s.flags SHF_WRITE, shfContains s.flags SHF_EXECINSTR⟩,
          ctr + ((VirtAddr.mk (s.addr + s.size)).ceil.number -
            (VirtAddr.mk s.addr).floor.number)) := by
        simp [loadSection, ha, Nat.pos_iff_ne_zero.mp hsz, h3]
      have ih := phase1_events_of_wf buf pd rest
        (if List.isPrefixOf dotDynamic s.name
          then some (pd buf s.offset (s.offset + s.size)) else dyn)
        (ctr + ((VirtAddr.mk (s.addr + s.size)).ceil.number -
          (VirtAddr.mk s.addr).floor.number)) hrest
      constructor
      · simp only [phase1, hls]
        exact ih.1
      · simp only [phase1, hls, claimSectionEvents, ha, if_true]
        rw [ih.2]
        rfl
    · have ha' : shfContains s.flags SHF_ALLOC = false := by simpa using ha
      have hls : loadSection buf s ctr = some ([], ctr) := by
        simp [loadSection, ha']
      have ih := phase1_events_of_wf buf pd rest
        (if List.isPrefixOf dotDynamic s.name
          then some (pd buf s.offset (s.offset + s.size)) else dyn) ctr hrest
      constructor
      · simp only [phase1, hls]
        exact ih.1
      · simp only [phase1, hls, claimSectionEvents, ha', Bool.false_eq_true,
          if_false, List.nil_append]
        exact ih.2

/-- C4: for every section flagged as occupying memory at run time the
loader allocates one fresh physical page and issues one map call per
virtual page in exactly `[floor(addr), ceil(addr+size))`, readable,
writable iff the write flag is set, executable iff the execute flag is
set; non-allocated sections cause no allocation or mapping; and the
allocated pages are pairwise distinct (fresh). -/
theorem spec_c4_section_alloc_map (buf : List Nat) (pd : List Nat → Nat → Nat → Dynamic)
    (secs : List SectionHeader)
    (h : ∀ s ∈ secs, shfContains s.flags SHF_ALLOC = true →
      0 < s.size ∧ (s.shType ≠ SHT_NOBITS → s.offset + s.size ≤ buf.length)) :
    (phase1 buf pd secs none 0).ok = true ∧
    (phase1 buf pd secs none 0).events = claimSectionEvents secs 0 ∧
    (phase1 buf pd secs none 0).events.filterMap Event.mappedPage =
      List.range (pageCount secs) ∧
    ((phase1 buf pd secs none 0).events.filterMap Event.mappedPage).Nodup := by
  obtain ⟨hok, hev⟩ := phase1_events_of_wf buf pd secs none 0 h
  refine ⟨hok, hev, ?_, ?_⟩
  · rw [hev, claim_filterMap_pages]
    exact (List.range_eq_range' _).symm
  · rw [hev, claim_filterMap_pages]
    exact List.nodup_range' 0 _

/-- C4 witness: the spec's two-section example, a read-only section
`[0x1000, 0x1800)` and a read-write section `[0x2000, 0x3000)`. -/
theorem spec_c4_section_alloc_map_witness :
    (∀ s ∈ [(⟨[46, 116, 101, 120, 116], 2, 8, 4096, 0, 2048⟩ : SectionHeader),
        ⟨[46, 100, 97, 116, 97], 3, 8, 8192, 0, 4096⟩],
      shfContains s.flags SHF_ALLOC = true →
      0 < s.size ∧ (s.shType ≠ SHT_NOBITS →
        s.offset + s.size ≤ ([] : List Nat).length)) ∧
    ((phase1 [] trivialParse
        [⟨[46, 116, 101, 120, 116], 2, 8, 4096, 0, 2048⟩,
          ⟨[46, 100, 97, 116, 97], 3, 8, 8192, 0, 4096⟩] none 0).ok = true ∧
      (phase1 [] trivialParse
        [⟨[46, 116, 101, 120, 116], 2, 8, 4096, 0, 2048⟩,
          ⟨[46, 100, 97, 116, 97], 3, 8, 8192, 0, 4096⟩] none 0).events =
        claimSectionEvents
          [⟨[46, 116, 101, 120, 116], 2, 8, 4096, 0, 2048⟩,
            ⟨[46, 100, 97, 116, 97], 3, 8, 8192, 0, 4096⟩] 0 ∧
      (phase1 [] trivialParse
        [⟨[46, 116, 101, 120, 116], 2, 8, 4096, 0, 2048⟩,
          ⟨[46, 100, 97, 116, 97], 3, 8, 8192, 0, 4096⟩] none 0).events.filterMap
          Event.mappedPage =
        List.range (pageCount
          [⟨[46, 116, 101, 120, 116], 2, 8, 4096, 0, 2048⟩,
            ⟨[46, 100, 97, 116, 97], 3, 8, 8192, 0, 4096⟩]) ∧
      ((phase1 [] trivialParse
        [⟨[46, 116, 101, 120, 116], 2, 8, 4096, 0, 2048⟩,
          ⟨[46, 100, 97, 116, 97], 3, 8, 8192, 0, 4096⟩] none 0).events.filterMap
          Event.mappedPage).Nodup) :=
  ⟨by decide,
    spec_c4_section_alloc_map [] trivialParse
      [⟨[46, 116, 101, 120, 116], 2, 8, 4096, 0, 2048⟩,
        ⟨[46, 100, 97, 116, 97], 3, 8, 8192, 0, 4096⟩] (by decide)⟩


/-- Helper: an allocate-and-map loop issues neither `map_existing` calls
nor raw writes. -/
theorem allocRange_shape (c a b : Nat) (p : Perm) :
    ∀ e ∈ allocRange c a b p, e.isMapExisting = false ∧ e.isWrite = false := by
  intro e he
  rw [allocRange, List.mem_flatMap] at he
  obtain ⟨i, _, hi⟩ := he
  rcases List.mem_cons.mp hi with h | h
  · subst h
    exact ⟨rfl, rfl⟩
  · rcases List.mem_cons.mp h with h2 | h2
    · subst h2
      exact ⟨rfl, rfl⟩
    · simp at h2

/-- Helper: one section's phase-1 calls are allocate-and-map only. -/
theorem loadSection_shape (buf : List Nat) (s : SectionHeader) (ctr : Nat)
    (evs : List Event) (c2 : Nat) (h : loadSection buf s ctr = some (evs, c2)) :
    ∀ e ∈ evs, e.isMapExisting = false ∧ e.isWrite = false := by
  unfold loadSection at h
  split_ifs at h with h1 h2 h3
  · injection h with h4
    injection h4 with h5 h6
    subst h5
    intro e he
    simp at he
  · injection h with h4
    injection h4 with h5 h6
    subst h5
    exact allocRange_shape _ _ _ _

/-- Helper: the whole section loop issues neither `map_existing` calls
nor raw writes. -/
theorem phase1_shape (buf : List Nat) (pd : List Nat → Nat → Nat → Dynamic) :
    ∀ (secs : List SectionHeader) (dyn : Option Dynamic) (ctr : Nat),
      ∀ e ∈ (phase1 buf pd secs dyn ctr).events,
        e.isMapExisting = false ∧ e.isWrite = false
  | [], _, _, e, he => by simp [phase1] at he
  | s :: rest, dyn, ctr, e, he => by
    cases hls : loadSection buf s ctr with
    | none =>
      rw [phase1] at he
      simp only [hls] at he
      simp at he
    | some p =>
      obtain ⟨evs, c2⟩ := p
      rw [phase1] at he
      simp only [hls] at he
      rcases List.mem_append.mp he with h | h
      · exact loadSection_shape buf s ctr evs c2 hls e h
      · exact phase1_shape buf pd rest _ c2 e h

/-- Helper: one relocation entry issues at most a raw write. -/
theorem processRelaEntry_shape (config : VDSOConfig) (d : Dynamic)
    (tr : Nat → Option Nat) (ent : RelaEntry) (evs : List Event)
    (h : processRelaEntry config d tr ent = some evs) :
    ∀ e ∈ evs, e.isMapExisting = false ∧ e.isAlloc = false := by
  simp only [processRelaEntry] at h
  split at h
  · split at h
    · injection h with h4
      subst h4
      intro e he
      rcases List.mem_cons.mp he with h5 | h5
      · subst h5
        exact ⟨rfl, rfl⟩
      · simp at h5
    · cases h
  · injection h with h4
    subst h4
    intro e he
    simp at he

/-- Helper: the relocation loop issues raw writes only. -/
theorem relocList_shape (config : VDSOConfig) (d : Dynamic)
    (tr : Nat → Option Nat) :
    ∀ (tbl : List RelaEntry) (evs : List Event),
      relocList config d tr tbl = some evs →
      ∀ e ∈ evs, e.isMapExisting = false ∧ e.isAlloc = false
  | [], evs, h, e, he => by
    injection h with h4
    subst h4
    simp at he
  | ent :: rest, evs, h, e, he => by
    rw [relocList] at h
    rcases hpe : processRelaEntry config d tr ent with _ | evs0
    · rw [hpe] at h
      cases h
    · rw [hpe] at h
      rcases hrl : relocList config d tr rest with _ | evs1
      · rw [hrl] at h
        cases h
      · rw [hrl] at h
        injection h with h4
        subst h4
        rcases List.mem_append.mp he with h5 | h5
        · exact processRelaEntry_shape config d tr ent evs0 hpe e h5
        · exact relocList_shape config d tr rest evs1 hrl e h5

/-- Helper: relocation processing issues raw writes only. -/
theorem relocEvents_shape (config : VDSOConfig) (dyn : Option Dynamic)
    (tr : Nat → Option Nat) (evs : List Event)
    (h : relocEvents config dyn tr = some evs) :
    ∀ e ∈ evs, e.isMapExisting = false ∧ e.isAlloc = false := by
  simp only [relocEvents] at h
  split at h
  · injection h with h4
    subst h4
    intro e he
    simp at he
  · split at h
    · injection h with h4
      subst h4
      intro e he
      simp at he
    · exact relocList_shape config _ tr _ evs h
    · cases h

/-- Helper: every VDSO-splice call is a `map_existing`. -/
theorem spliceEvents_all_me (config : VDSOConfig) :
    ∀ e ∈ spliceEvents config, e.isMapExisting = true := by
  intro e he
  rw [spliceEvents, List.mem_map] at he
  obtain ⟨ppn, _, hpe⟩ := he
  subst hpe
  rfl

/-- C5: with a `VDSOConfig` supplied (and the load completing), the
`map_existing` calls of the whole load are exactly one per physical page
`ppn` in `[floor(start), ceil(end))`, mapping `ppn` to virtual page
`floor(target) + (ppn - floor(start))` with permission
`{r: true, w: false, x: true}`; the splice performs no allocation. -/
theorem spec_c5_vdso_splice (buf : List Nat) (secs : List SectionHeader) (ep : Nat)
    (pd : List Nat → Nat → Nat → Dynamic) (tr : Nat → Option Nat)
    (config : VDSOConfig) (st : StackConfig)
    (h : (Loader.load buf secs ep pd tr (some config) st).1.isSome = true) :
    ((Loader.load buf secs ep pd tr (some config) st).2.filter
        Event.isMapExisting) =
      (List.range ((PhysAddr.mk config.«end»).ceil.val -
          (PhysAddr.mk config.start).floor.val)).map
        (fun i => Event.mapExisting ((PhysAddr.mk config.start).floor.val + i)
          ((VirtAddr.mk config.target).floor.val + i) ⟨true, false, true⟩) ∧
    (∀ e ∈ spliceEvents config, e.isAlloc = false) := by
  constructor
  · cases hok : (phase1 buf pd secs none 0).ok with
    | false =>
      rw [Loader.load] at h
      simp only [hok] at h
      simp at h
    | true =>
      rcases hre : relocEvents config (phase1 buf pd secs none 0).dyn tr
        with _ | re
      · rw [Loader.load] at h
        simp only [hok, hre] at h
        simp at h
      · rw [Loader.load]
        simp only [hok, hre]
        simp only [Bool.true_eq_false, if_false, List.filter_append]
        have e1 : (phase1 buf pd secs none 0).events.filter
            Event.isMapExisting = [] :=
          List.filter_eq_nil_iff.mpr (fun a ha => by
            simp [(phase1_shape buf pd secs none 0 a ha).1])
        have e2 : re.filter Event.isMapExisting = [] :=
          List.filter_eq_nil_iff.mpr (fun a ha => by
            simp [(relocEvents_shape config _ tr re hre a ha).1])
        have e3 : (allocRange (phase1 buf pd secs none 0).ctr
            ((VirtAddr.mk st.start).floor.number)
            ((VirtAddr.mk st.«end»).ceil.number) ⟨true, true, false⟩).filter
            Event.isMapExisting = [] :=
          List.filter_eq_nil_iff.mpr (fun a ha => by
            simp [(allocRange_shape _ _ _ _ a ha).1])
        have e4 : (spliceEvents config).filter Event.isMapExisting =
            spliceEvents config :=
          List.filter_eq_self.mpr (fun a ha => spliceEvents_all_me config a ha)
        rw [e1, e2, e3, e4]
        simp only [List.nil_append, List.append_nil]
        rw [spliceEvents, List.range'_eq_map_range, List.map_map]
        apply List.map_congr_left
        intro i _
        simp [Nat.add_sub_cancel_left]
  · intro e he
    rw [spliceEvents, List.mem_map] at he
    obtain ⟨ppn, _, hpe⟩ := he
    subst hpe
    rfl

/-- C5 witness: the spec's example `start=0x80000, end=0x82000,
target=0x10000` yields exactly the two `map_existing` calls
`0x80 → 0x10` and `0x81 → 0x11`. -/
theorem spec_c5_vdso_splice_witness :
    (Loader.load [] [] 0 trivialParse noTranslate
      (some ⟨0x80000, 0x82000, 0x10000, fun _ => none⟩) ⟨0, 0⟩).1.isSome =
        true ∧
    (((Loader.load [] [] 0 trivialParse noTranslate
        (some ⟨0x80000, 0x82000, 0x10000, fun _ => none⟩) ⟨0, 0⟩).2.filter
        Event.isMapExisting) =
      (List.range ((PhysAddr.mk 0x82000).ceil.val -
          (PhysAddr.mk 0x80000).floor.val)).map
        (fun i => Event.mapExisting ((PhysAddr.mk 0x80000).floor.val + i)
          ((VirtAddr.mk 0x10000).floor.val + i) ⟨true, false, true⟩) ∧
    (∀ e ∈ spliceEvents ⟨0x80000, 0x82000, 0x10000, fun _ => none⟩,
      e.isAlloc = false)) :=
  ⟨by decide,
    spec_c5_vdso_splice [] [] 0 trivialParse noTranslate
      ⟨0x80000, 0x82000, 0x10000, fun _ => none⟩ ⟨0, 0⟩ (by decide)⟩

/-- Helper: a resolved entry of a successfully processed RELA table
contributes its GOT write to the emitted events. -/
theorem relocList_write_mem (config : VDSOConfig) (d : Dynamic)
    (tr : Nat → Option Nat) :
    ∀ (tbl : List RelaEntry) (evs : List Event) (ent : RelaEntry)
      (atP gp : Nat), relocList config d tr tbl = some evs → ent ∈ tbl →
      config.lookup ((d.resolveSym (ent.info >>> 32)).2) = some atP →
      tr ent.offset = some gp →
      Event.write gp (config.target + (atP - config.start)) ∈ evs
  | [], _, ent, _, _, _, hm, _, _ => absurd hm (List.not_mem_nil ent)
  | e0 :: rest, evs, ent, atP, gp, h, hm, hl, ht => by
    rw [relocList] at h
    rcases hpe : processRelaEntry config d tr e0 with _ | evs0
    · rw [hpe] at h
      cases h
    · rw [hpe] at h
      rcases hrl : relocList config d tr rest with _ | evs1
      · rw [hrl] at h
        cases h
      · rw [hrl] at h
        injection h with h4
        subst h4
        rcases List.mem_cons.mp hm with he | he
        · subst he
          simp only [processRelaEntry, hl, ht, Option.some.injEq] at hpe
          subst hpe
          exact List.mem_append.mpr (Or.inl (List.mem_cons_self _ _))
        · exact List.mem_append.mpr (Or.inr
            (relocList_write_mem config d tr rest evs1 ent atP gp hrl he hl ht))

/-- C3: with a `VDSOConfig` supplied and the captured Dynamic view
holding a RELA table, every entry whose symbol name the lookup resolves
to a physical address `atP` gets a machine word written at the physical
address the MMU translates the entry's offset field to, and the value
written equals `config.target + (atP - config.start)` (stated on the
no-underflow, no-overflow usize domain). -/
theorem spec_c3_reloc_value (buf : List Nat) (secs : List SectionHeader) (ep : Nat)
    (pd : List Nat → Nat → Nat → Dynamic) (tr : Nat → Option Nat)
    (config : VDSOConfig) (stack : StackConfig) (d : Dynamic)
    (tbl : List RelaEntry) (ent : RelaEntry) (atP gp : Nat)
    (hsome : (Loader.load buf secs ep pd tr (some config) stack).1.isSome = true)
    (hdyn : (phase1 buf pd secs none 0).dyn = some d)
    (hrel : d.rel = some (RelTable.RELA tbl))
    (hent : ent ∈ tbl)
    (hlook : config.lookup ((d.resolveSym (ent.info >>> 32)).2) = some atP)
    (htr : tr ent.offset = some gp)
    (hge : config.start ≤ atP)
    (hov : config.target + (atP - config.start) < 2 ^ 64) :
    Event.write gp (config.target + (atP - config.start)) ∈
      (Loader.load buf secs ep pd tr (some config) stack).2 := by
  cases hok : (phase1 buf pd secs none 0).ok with
  | false =>
    rw [Loader.load] at hsome
    simp only [hok] at hsome
    simp at hsome
  | true =>
    rcases hre : relocEvents config (phase1 buf pd secs none 0).dyn tr
      with _ | re
    · rw [Loader.load] at hsome
      simp only [hok, hre] at hsome
      simp at hsome
    · have hmem2 : Event.write gp (config.target + (atP - config.start)) ∈ re := by
        rw [hdyn] at hre
        simp only [relocEvents, hrel] at hre
        exact relocList_write_mem config d tr tbl re ent atP gp hre hent hlook htr
      rw [Loader.load]
      simp only [hok, hre, Bool.true_eq_false, if_false]
      exact List.mem_append.mpr (Or.inl (List.mem_append.mpr (Or.inr hmem2)))

/-- Helper: the relocation loop completes whenever every resolved entry
also translates. -/
theorem relocList_isSome (config : VDSOConfig) (d : Dynamic)
    (tr : Nat → Option Nat) :
    ∀ tbl : List RelaEntry,
      (∀ e ∈ tbl,
        (config.lookup ((d.resolveSym (e.info >>> 32)).2)).isSome = true →
        (tr e.offset).isSome = true) →
      (relocList config d tr tbl).isSome = true
  | [], _ => rfl
  | e0 :: rest, h => by
    rw [relocList]
    have hrest := relocList_isSome config d tr rest
      (fun e he => h e (List.mem_cons_of_mem e0 he))
    obtain ⟨evs1, hevs1⟩ := Option.isSome_iff_exists.mp hrest
    rcases hl : config.lookup ((d.resolveSym (e0.info >>> 32)).2) with _ | atP
    · have hpe : processRelaEntry config d tr e0 = some [] := by
        simp only [processRelaEntry, hl]
      rw [hpe, hevs1]
      rfl
    · have htr0 : (tr e0.offset).isSome = true :=
        h e0 (List.mem_cons_self e0 rest) (by rw [hl]; rfl)
      obtain ⟨gp, hgp⟩ := Option.isSome_iff_exists.mp htr0
      have hpe : processRelaEntry config d tr e0 =
          some [Event.write gp (config.target + (atP - config.start))] := by
        simp only [processRelaEntry, hl, hgp]
      rw [hpe, hevs1]
      rfl

/-- C8: an explicit-addend entry whose symbol name the lookup does not
resolve is skipped: its processing emits no write and no error, and the
load (with the other entries translating fine) completes normally. -/
theorem spec_c8_unresolved_skip (buf : List Nat) (secs : List SectionHeader) (ep : Nat)
    (pd : List Nat → Nat → Nat → Dynamic) (tr : Nat → Option Nat)
    (config : VDSOConfig) (stack : StackConfig) (d : Dynamic)
    (tbl : List RelaEntry) (ent : RelaEntry)
    (hok : (phase1 buf pd secs none 0).ok = true)
    (hdyn : (phase1 buf pd secs none 0).dyn = some d)
    (hrel : d.rel = some (RelTable.RELA tbl))
    (hent : ent ∈ tbl)
    (hlook : config.lookup ((d.resolveSym (ent.info >>> 32)).2) = none)
    (hothers : ∀ e ∈ tbl,
      (config.lookup ((d.resolveSym (e.info >>> 32)).2)).isSome = true →
      (tr e.offset).isSome = true) :
    processRelaEntry config d tr ent = some [] ∧
    (Loader.load buf secs ep pd tr (some config) stack).1.isSome = true := by
  constructor
  · simp only [processRelaEntry, hlook]
  · have hres : (relocEvents config (phase1 buf pd secs none 0).dyn tr).isSome =
        true := by
      rw [hdyn]
      simp only [relocEvents, hrel]
      exact relocList_isSome config d tr tbl hothers
    obtain ⟨re, hre⟩ := Option.isSome_iff_exists.mp hres
    rw [Loader.load]
    simp only [hok, hre, Bool.true_eq_false, if_false]
    rfl

/-- C3 witness: the spec's example — a symbol resolving to
`start + 0x40` with `target = 0x10000` writes `0x10040` at the
translated GOT address. -/
theorem spec_c3_reloc_value_witness :
    ((Loader.load [] [⟨dotDynamic, 0, 8, 0, 0, 0⟩] 0 parseWitness
        translateWitness (some vdsoWitness) ⟨0, 0⟩).1.isSome = true ∧
      (phase1 [] parseWitness [⟨dotDynamic, 0, 8, 0, 0, 0⟩] none 0).dyn =
        some dynWitness ∧
      dynWitness.rel = some (RelTable.RELA [⟨0x3000, 5 <<< 32, 0⟩]) ∧
      (⟨0x3000, 5 <<< 32, 0⟩ : RelaEntry) ∈
        [(⟨0x3000, 5 <<< 32, 0⟩ : RelaEntry)] ∧
      vdsoWitness.lookup
        ((dynWitness.resolveSym ((5 <<< 32 : Nat) >>> 32)).2) = some 0x80040 ∧
      translateWitness 0x3000 = some 0x9000 ∧
      vdsoWitness.start ≤ 0x80040 ∧
      vdsoWitness.target + (0x80040 - vdsoWitness.start) < 2 ^ 64) ∧
    Event.write 0x9000 (vdsoWitness.target + (0x80040 - vdsoWitness.start)) ∈
      (Loader.load [] [⟨dotDynamic, 0, 8, 0, 0, 0⟩] 0 parseWitness
        translateWitness (some vdsoWitness) ⟨0, 0⟩).2 :=
  ⟨⟨by rfl, by rfl, by rfl, by decide, by rfl, by rfl, by decide, by decide⟩,
    spec_c3_reloc_value [] [⟨dotDynamic, 0, 8, 0, 0, 0⟩] 0 parseWitness translateWitness
      vdsoWitness ⟨0, 0⟩ dynWitness [⟨0x3000, 5 <<< 32, 0⟩]
      ⟨0x3000, 5 <<< 32, 0⟩ 0x80040 0x9000 (by rfl) (by rfl) (by rfl)
      (by decide) (by rfl) (by rfl) (by decide) (by decide)⟩

/-- C8 witness: a one-entry RELA table with a lookup that resolves
nothing — no write occurs and the load still returns a `Loader`. -/
theorem spec_c8_unresolved_skip_witness :
    ((phase1 [] parseW8 [⟨dotDynamic, 0, 8, 0, 0, 0⟩] none 0).ok = true ∧
      (phase1 [] parseW8 [⟨dotDynamic, 0, 8, 0, 0, 0⟩] none 0).dyn =
        some dynW8 ∧
      dynW8.rel = some (RelTable.RELA [⟨0x3000, 0, 0⟩]) ∧
      (⟨0x3000, 0, 0⟩ : RelaEntry) ∈ [(⟨0x3000, 0, 0⟩ : RelaEntry)] ∧
      vdsoNoLookup.lookup ((dynW8.resolveSym ((0 : Nat) >>> 32)).2) = none ∧
      (∀ e ∈ [(⟨0x3000, 0, 0⟩ : RelaEntry)],
        (vdsoNoLookup.lookup ((dynW8.resolveSym (e.info >>> 32)).2)).isSome =
          true → (noTranslate e.offset).isSome = true)) ∧
    (processRelaEntry vdsoNoLookup dynW8 noTranslate ⟨0x3000, 0, 0⟩ =
        some [] ∧
      (Loader.load [] [⟨dotDynamic, 0, 8, 0, 0, 0⟩] 0 parseW8 noTranslate
        (some vdsoNoLookup) ⟨0, 0⟩).1.isSome = true) :=
  ⟨⟨by rfl, by rfl, by rfl, by decide, by rfl,
      by
        intro e he hx
        simp [vdsoNoLookup] at hx⟩,
    spec_c8_unresolved_skip [] [⟨dotDynamic, 0, 8, 0, 0, 0⟩] 0 parseW8 noTranslate vdsoNoLookup
      ⟨0, 0⟩ dynW8 [⟨0x3000, 0, 0⟩] ⟨0x3000, 0, 0⟩ (by rfl) (by rfl) (by rfl)
      (by decide) (by rfl)
      (by
        intro e he hx
        simp [vdsoNoLookup] at hx)⟩

end KernelPrelink
